import Mathlib

set_option maxRecDepth 100000

/-!
Shallow embedding of the color model, label registry, message formatting,
file persistence and rotation logic of the colored-logger repository
(src/src/logger.ts), together with theorems settling the specification
claims about it.

Conventions used throughout:
* JavaScript numbers that hold palette indices are embedded as `Int`
  (so that negative indices can be represented); values that the code
  guarantees to be nonnegative are embedded as `Nat`.
* A JavaScript function that may `throw` is embedded with an explicit
  result type carrying a `thrown` constructor with the message string;
  a JavaScript expression that evaluates to `undefined` (out-of-bounds
  array access) is embedded with an `undefined` constructor.
* `Math.sqrt` in the nearest-color search is strictly monotone on the
  integer squared distances that occur there (all of them are exactly
  representable, and consecutive square roots in the relevant range are
  far wider apart than double precision spacing), so comparing squared
  distances as integers yields exactly the same comparison results as the
  source's comparison of square roots.  The embedding therefore compares
  squared distances.
-/

/-- RGB triple as produced by `ansiToRgb` in logger.ts (fields `R`, `G`, `B`,
each in 0..255 for palette colors). -/
structure RGBColor where
  R : Nat
  G : Nat
  B : Nat
deriving DecidableEq, Repr

/-- Result of a JavaScript function call that can return a value, return
`undefined`, or throw an error with a message. -/
inductive JsResult where
  | ok (c : RGBColor)
  | undefined
  | thrown (msg : String)
deriving DecidableEq, Repr

/-- JavaScript array indexing `l[i]`: `undefined` (here `none`) for a
negative or out-of-bounds index. -/
def jsIndex {α : Type} (l : List α) (i : Int) : Option α :=
  if i < 0 then none else l.get? i.toNat

/-- The fixed 16-entry base color table of `ansiToRgb` (logger.ts lines
358-375), transcribed verbatim. -/
def baseColors : List RGBColor :=
  [⟨0, 0, 0⟩, ⟨128, 0, 0⟩, ⟨0, 128, 0⟩, ⟨128, 128, 0⟩,
   ⟨0, 0, 128⟩, ⟨128, 0, 128⟩, ⟨0, 128, 128⟩, ⟨192, 192, 192⟩,
   ⟨128, 128, 128⟩, ⟨255, 0, 0⟩, ⟨0, 255, 0⟩, ⟨255, 255, 0⟩,
   ⟨0, 0, 255⟩, ⟨255, 0, 255⟩, ⟨0, 255, 255⟩, ⟨255, 255, 255⟩]

/-- `ansiToRgb` (logger.ts lines 356-389): converts an 8-bit ANSI palette
code to RGB.  For `code < 16` the source returns `baseColors[code]`, which
for a negative code is the JavaScript value `undefined` (no error is
thrown); codes 16..231 go through the 6x6x6 cube formula, codes 232..255
through the grayscale ramp (`Math.round` on an integer is the identity),
and codes >= 256 throw "Invalid ANSI color code". -/
def ansiToRgb (code : Int) : JsResult :=
  if code < 16 then
    match jsIndex baseColors code with
    | some c => .ok c
    | none => .undefined
  else if code < 232 then
    let c := (code - 16).toNat
    .ok ⟨c / 36 * 51, c % 36 / 6 * 51, c % 6 * 51⟩
  else if code < 256 then
    let g := (code - 232).toNat * 10 + 8
    .ok ⟨g, g, g⟩
  else
    .thrown "Invalid ANSI color code"

/-- The RGB color of palette index `i` as computed by `ansiToRgb`; for
every `i < 256` the call returns `.ok` (lemma `ansiToRgb_palette` below),
so the fallback branch is never reached on the 0..255 range used by
`rgbToAnsi`. -/
def paletteColor (i : Nat) : RGBColor :=
  match ansiToRgb (i : Int) with
  | .ok c => c
  | _ => ⟨0, 0, 0⟩

/-- Squared Euclidean distance between two RGB triples, computed over `Int`
exactly as the radicand of the `Math.sqrt` call in `rgbToAnsi` (logger.ts
lines 408-412); see the header comment for why comparing these squared
distances is equivalent to comparing the source's square roots. -/
def dist2 (a b : RGBColor) : Int :=
  let dr := (a.R : Int) - (b.R : Int)
  let dg := (a.G : Int) - (b.G : Int)
  let db := (a.B : Int) - (b.B : Int)
  dr * dr + dg * dg + db * db

/-- The scanning loop of `rgbToAnsi` (logger.ts lines 403-418): running
index of smallest distance so far.  `none` plays the role of the
`Number.MAX_VALUE` initial value, which every actual distance in the loop
is strictly below. -/
def minIdxFold (f : Nat → Int) (n : Nat) : Nat × Option Int :=
  (List.range n).foldl
    (fun acc i =>
      match acc.2 with
      | none => (i, some (f i))
      | some s => if f i < s then (i, some (f i)) else acc)
    (0, none)

/-- `rgbToAnsi` (logger.ts lines 397-421): nearest 8-bit palette index to
an RGB color, scanning indices 0..255 in order with a strictly-less
comparison (so ties keep the earlier index). -/
def rgbToAnsi (color : RGBColor) : Nat :=
  (minIdxFold (fun i => dist2 (paletteColor i) color) 256).1

/-- Result record of `ansiEscapeToRgb` (the `AnsiColorResult` interface of
the source): an RGB color and whether it is a background color. -/
structure AnsiColorResult where
  color : RGBColor
  isBackground : Bool
deriving DecidableEq, Repr

/-- Result of a call to `ansiEscapeToRgb`: either an `AnsiColorResult` or a
thrown error with its message. -/
inductive ParseResult where
  | ok (r : AnsiColorResult)
  | thrown (msg : String)
deriving DecidableEq, Repr

/-- Character class `\d` of the escape regex in `ansiEscapeToRgb`. -/
def isDigitChar (c : Char) : Bool :=
  '0' ≤ c && c ≤ '9'

/-- JavaScript `Number` applied to a nonempty all-digit string (the only
shape that reaches it in `ansiEscapeToRgb`): its decimal value. -/
def digitsToNat (l : List Char) : Nat :=
  l.foldl (fun a c => a * 10 + (c.toNat - 48)) 0

/-- Decimal digit character, as produced by JavaScript number-to-string
interpolation. -/
def digitChar (n : Nat) : Char :=
  Char.ofNat (48 + n)

/-- Decimal printing of a natural number (JavaScript template
interpolation of a nonnegative integer), with explicit fuel; the fuel
`n + 1` used by `natToDigits` always suffices. -/
def natToDigitsAux : Nat → Nat → List Char
  | 0, _ => []
  | fuel + 1, n =>
    if n < 10 then [digitChar n]
    else natToDigitsAux fuel (n / 10) ++ [digitChar (n % 10)]

/-- Decimal printing of a natural number. -/
def natToDigits (n : Nat) : List Char :=
  natToDigitsAux (n + 1) n

/-- Repeated matching of the `(;\d+)?(;\d+)*` part of the escape regex:
consumes as many `;digits` blocks as possible, returning the digit strings
of the blocks and the unconsumed remainder.  Fuel-based so that the kernel
can evaluate it; `parseBlocks` supplies sufficient fuel (each step consumes
at least two characters). -/
def parseBlocksAux : Nat → List Char → List (List Char) × List Char
  | 0, cs => ([], cs)
  | fuel + 1, cs =>
    match cs with
    | [] => ([], [])
    | c :: cs' =>
      if c = ';' then
        let d := cs'.takeWhile isDigitChar
        if d = [] then ([], c :: cs')
        else
          let r := parseBlocksAux fuel (cs'.dropWhile isDigitChar)
          (d :: r.1, r.2)
      else ([], c :: cs')

/-- All `;digits` blocks at the front of a character list. -/
def parseBlocks (cs : List Char) : List (List Char) × List Char :=
  parseBlocksAux cs.length cs

/-- A character list whose head, if any, is not a digit (the shape of the
remainder after a maximal digit run). -/
def headNotDigit : List Char → Prop
  | [] => True
  | c :: _ => isDigitChar c = false

/-- One attempted match of the regex `\x1b\[(\d+)(;\d+)?(;\d+)*m` at the
start of a character list.  The character classes of the pattern are
pairwise disjoint, so the regex engine's greedy backtracking search
succeeds at a position exactly when maximal-munch scanning does: after
`ESC [` there must be at least one digit, then any number of `;digits`
blocks, then `m`.  Returns the digit string of group 1 and the digit
strings of all blocks. -/
def matchAtPos (cs : List Char) : Option (List Char × List (List Char)) :=
  match cs with
  | c1 :: c2 :: rest =>
    if c1 = '\x1b' ∧ c2 = '[' then
      let d1 := rest.takeWhile isDigitChar
      if d1 = [] then none
      else
        let br := parseBlocks (rest.dropWhile isDigitChar)
        match br.2 with
        | 'm' :: _ => some (d1, br.1)
        | _ => none
    else none
  | _ => none

/-- Unanchored leftmost search of the escape regex, as performed by
`ansi.match(regex)` in the source. -/
def findAnsiMatch : List Char → Option (List Char × List (List Char))
  | [] => none
  | c :: cs =>
    match matchAtPos (c :: cs) with
    | some m => some m
    | none => findAnsiMatch cs

/-- Conversion of a parsed (hence nonnegative) code through `ansiToRgb`
inside `ansiEscapeToRgb`; a thrown error propagates.  The `undefined`
branch is unreachable for the nonnegative codes produced by the parser
(JavaScript array lookup is defined on 0..15 there). -/
def toColorResult (code : Nat) (bg : Bool) : ParseResult :=
  match ansiToRgb (code : Int) with
  | .ok c => .ok ⟨c, bg⟩
  | .thrown msg => .thrown msg
  | .undefined => .thrown "unreachable: nonnegative palette code"

/-- `ansiEscapeToRgb` (logger.ts lines 429-460).  The JavaScript capture
semantics are reproduced exactly: a repeated capture group keeps only its
LAST iteration, so `match.slice(1)` holds group 1, the first `;digits`
block (group 2, if any) and the last block (group 3, if at least two
blocks); `filter(Boolean).join('')` then `split(';')` and `Number` turn
these into one, two or three numeric codes. -/
def ansiEscapeToRgb (ansi : String) : ParseResult :=
  match findAnsiMatch ansi.toList with
  | none => .thrown "Invalid ANSI escape sequence"
  | some (d1, blocks) =>
    let groups : List (List Char) :=
      match blocks with
      | [] => [d1]
      | [b] => [d1, b]
      | b :: c :: rest => [d1, b, (c :: rest).getLastD []]
    let codes := groups.map digitsToNat
    match codes with
    | [code] =>
      if 30 ≤ code ∧ code ≤ 37 then toColorResult (code - 30) false
      else if 40 ≤ code ∧ code ≤ 47 then toColorResult (code - 40) true
      else .thrown "Unsupported ANSI escape sequence"
    | [c0, c1, c2] =>
      if (c0 = 38 ∨ c0 = 48) ∧ c1 = 5 then toColorResult c2 (c0 = 48)
      else .thrown "Unsupported ANSI escape sequence"
    | _ => .thrown "Unsupported ANSI escape sequence"

/-- The character list of the true-color escape emitted by the `Rgb`
branch of `getColorStringForNode` (logger.ts lines 339-344):
`ESC [ 48 ; 2 ; R ; G ; B m` when `isBackground`, else with `38`. -/
def rgbToAnsiEscapeChars (c : RGBColor) (isBackground : Bool) : List Char :=
  '\x1b' :: '[' :: (if isBackground then '4' else '3') :: '8' :: ';' :: '2' :: ';' ::
    (natToDigits c.R ++ (';' :: (natToDigits c.G ++ (';' :: (natToDigits c.B ++ ['m'])))))

/-- The true-color escape string emitted by the `Rgb` branch of
`getColorStringForNode` (the spec's `rgbToAnsiEscape`). -/
def rgbToAnsiEscape (c : RGBColor) (isBackground : Bool) : String :=
  (rgbToAnsiEscapeChars c isBackground).asString

/-- The three formatting toggles of `LoggerOptions` that `formatMessage`
reads (logger.ts lines 197-213). -/
structure LoggerOptions where
  printTimestamp : Bool
  printLabelName : Bool
  printCallerFunctionLocation : Bool
deriving DecidableEq, Repr

/-- `formatMessage` (logger.ts lines 197-213).  The timestamp produced by
`moment().format()` and the caller string produced by `getCallerName()`
are external inputs of the call and are passed as parameters. -/
def formatMessage (o : LoggerOptions) (timestamp callerName label : String) : String :=
  let m1 := if o.printTimestamp then "[" ++ timestamp ++ "] " else ""
  let m2 := m1 ++ (if o.printLabelName then "[" ++ label.toUpper ++ "] " else "")
  let m3 := m2 ++ (if o.printCallerFunctionLocation then "[Function " ++ callerName ++ "] " else "")
  if o.printTimestamp || o.printCallerFunctionLocation || o.printLabelName then
    m3 ++ ": "
  else
    m3

/-- A JavaScript object message as seen by `JSON.stringify`: either it
serializes to some string, or serialization throws (circular structure). -/
inductive JsObj where
  | ser (s : String)
  | circular
deriving DecidableEq, Repr

/-- A message value passed to `saveToFile`: a string (the
`typeof message === "object"` test is false, the value is used as is) or
an object (the test is true, the value goes through `JSON.stringify`). -/
inductive JsValue where
  | str (s : String)
  | obj (o : JsObj)
deriving DecidableEq, Repr

/-- `JSON.stringify`: throws a TypeError on a circular structure. -/
def jsonStringify : JsObj → Except String String
  | .ser s => .ok s
  | .circular => .error "Converting circular structure to JSON"

/-- `saveToFile` (logger.ts lines 255-259).  The write stream is modeled by
returning the exact line handed to `logStream.write`; there is no
try/catch in the source, so an exception from `JSON.stringify` propagates
to the caller and is modeled as `.error`. -/
def saveToFile (formattedMessage : String) (message : JsValue) : Except String String :=
  match message with
  | .str s => .ok (formattedMessage ++ " " ++ s ++ "\n")
  | .obj o =>
    match jsonStringify o with
    | .ok s => .ok (formattedMessage ++ " " ++ s ++ "\n")
    | .error e => .error e

/-- Events affecting the rotation state: a write of `n` bytes appended via
the current sink, or one firing of the `setInterval` callback installed by
`createLogStream` (logger.ts lines 267-277). -/
inductive RotEvent where
  | write (n : Nat)
  | tick
deriving DecidableEq, Repr

/-- Rotation state of the file persistence manager.  `bytes` is the
current sink's `bytesWritten`; `generation` counts sinks opened at the log
file path (so it increases exactly when the old sink has been closed and
deleted and a new one opened); `rotations` counts completed rotation
cycles. -/
structure RotState where
  bytes : Nat
  generation : Nat
  rotations : Nat
deriving DecidableEq, Repr

/-- State after construction with file persistence enabled: one sink open,
nothing written, no rotation yet. -/
def rotInit : RotState :=
  ⟨0, 1, 0⟩

/-- One step of the rotation state machine, faithful to `createLogStream`
and `rotateLogFile` (logger.ts lines 267-277 and 293-303): a write only
accumulates bytes; the periodic check rotates exactly when
`bytesWritten > threshold` (strict comparison), closing and deleting the
old sink, opening a new one at the same path (whose `bytesWritten` starts
at 0).  The successful-deletion path of `rotateLogFile` is modeled; the
rotation is taken atomically within the timer callback. -/
def rotStep (threshold : Nat) (s : RotState) : RotEvent → RotState
  | .write n => { s with bytes := s.bytes + n }
  | .tick =>
    if s.bytes > threshold then
      ⟨0, s.generation + 1, s.rotations + 1⟩
    else
      s

/-- Run of the rotation state machine over a sequence of events. -/
def rotRun (threshold : Nat) (s : RotState) (es : List RotEvent) : RotState :=
  es.foldl (rotStep threshold) s

/-- A color specification stored in `MAPPED_LABEL` (the `COLOR` union of
the source): a palette name, a raw ANSI escape object, or an RGB object
with a background flag. -/
inductive COLOR where
  | named (s : String)
  | ansiObj (ansiCode : String)
  | rgb (R G B : Nat) (isBackground : Bool)
deriving DecidableEq, Repr

/-- JavaScript falsiness of a possibly-missing `COLOR` field: `undefined`
and the empty string are falsy, objects are always truthy. -/
def colorFalsy : Option COLOR → Bool
  | none => true
  | some (.named s) => s = ""
  | some (.ansiObj _) => false
  | some (.rgb _ _ _ _) => false

/-- JavaScript falsiness of a possibly-missing label-name field. -/
def labelFalsy : Option String → Bool
  | none => true
  | some s => s = ""

/-- The default `MAPPED_LABEL` table (logger.ts lines 53-62), in source
order. -/
def MAPPED_LABEL : List (String × COLOR) :=
  [("error", .named "RED"), ("warning", .named "YELLOW"),
   ("info", .named "CYAN"), ("success", .named "GREEN"),
   ("log", .named "WHITE"), ("notify", .named "BLUE"),
   ("alert", .named "YELLOWBG"), ("critical", .named "REDBG")]

/-- JavaScript object property assignment `m[k] = v` on an object kept as
an insertion-ordered association list: overwrite in place if the key is
present, else append. -/
def jsSet (m : List (String × COLOR)) (k : String) (v : COLOR) : List (String × COLOR) :=
  if m.any (fun e => e.1 == k) then
    m.map (fun e => if e.1 == k then (k, v) else e)
  else
    m ++ [(k, v)]

/-- JavaScript object property read `m[label]` (the lookup performed by
`log`, logger.ts line 177): exact key equality, no case normalization. -/
def resolveLabel (m : List (String × COLOR)) (label : String) : Option COLOR :=
  (m.find? (fun e => e.1 == label)).map (fun e => e.2)

/-- One caller-supplied entry of the `customLabels` option; either field
may be absent. -/
structure CustomLabel where
  label : Option String
  color : Option COLOR
deriving DecidableEq, Repr

/-- Body of the `forEach` in `updateCustomLabels` (logger.ts lines
134-139): `if(!label.label || !label.color) return;` then assignment. -/
def applyCustomLabel (m : List (String × COLOR)) (e : CustomLabel) : List (String × COLOR) :=
  if labelFalsy e.label || colorFalsy e.color then m
  else
    match e.label, e.color with
    | some l, some c => jsSet m l c
    | _, _ => m

/-- `updateCustomLabels` (logger.ts lines 134-139) applied to a registry. -/
def updateCustomLabels (m : List (String × COLOR)) (ls : List CustomLabel) : List (String × COLOR) :=
  ls.foldl applyCustomLabel m


/-- Sanity of the palette construction: on 0..255, the index range swept
by `rgbToAnsi`, the conversion `ansiToRgb` always succeeds and returns
exactly `paletteColor i`, so the fallback branch of `paletteColor` is
never reached there. -/
theorem ansiToRgb_palette : ∀ i : Nat, i < 256 → ansiToRgb (i : Int) = .ok (paletteColor i) := by
  decide

/-- The squared distance of a color to itself is zero. -/
theorem dist2_self (a : RGBColor) : dist2 a a = 0 := by
  simp [dist2]

/-- Squared distances are nonnegative. -/
theorem dist2_nonneg (a b : RGBColor) : 0 ≤ dist2 a b := by
  simp only [dist2]
  exact add_nonneg (add_nonneg (mul_self_nonneg _) (mul_self_nonneg _)) (mul_self_nonneg _)

/-- A squared distance of zero forces the two colors to be equal. -/
theorem dist2_eq_zero (a b : RGBColor) (h : dist2 a b = 0) : a = b := by
  rcases a with ⟨a1, a2, a3⟩
  rcases b with ⟨b1, b2, b3⟩
  simp only [dist2] at h
  have h1 : ((a1 : Int) - b1) * ((a1 : Int) - b1) = 0 := by
    nlinarith [mul_self_nonneg ((a1 : Int) - b1), mul_self_nonneg ((a2 : Int) - b2),
      mul_self_nonneg ((a3 : Int) - b3)]
  have h2 : ((a2 : Int) - b2) * ((a2 : Int) - b2) = 0 := by
    nlinarith [mul_self_nonneg ((a1 : Int) - b1), mul_self_nonneg ((a2 : Int) - b2),
      mul_self_nonneg ((a3 : Int) - b3)]
  have h3 : ((a3 : Int) - b3) * ((a3 : Int) - b3) = 0 := by
    nlinarith [mul_self_nonneg ((a1 : Int) - b1), mul_self_nonneg ((a2 : Int) - b2),
      mul_self_nonneg ((a3 : Int) - b3)]
  have e1 : a1 = b1 := by have := mul_self_eq_zero.mp h1; omega
  have e2 : a2 = b2 := by have := mul_self_eq_zero.mp h2; omega
  have e3 : a3 = b3 := by have := mul_self_eq_zero.mp h3; omega
  subst e1; subst e2; subst e3
  rfl

/-- Specification of the scanning loop: for a nonempty range it ends at an
index of minimum value, and on ties it keeps the smallest index (the
strictly-less comparison never replaces an equal value). -/
theorem minIdxFold_spec (f : Nat → Int) :
    ∀ n : Nat, 0 < n →
      ∃ j : Nat, minIdxFold f n = (j, some (f j)) ∧ j < n ∧
        (∀ i, i < n → f j ≤ f i) ∧ (∀ i, i < n → f i = f j → j ≤ i) := by
  intro n
  induction n with
  | zero => intro h; exact absurd h (by omega)
  | succ n ih =>
    intro _
    by_cases hn : n = 0
    · subst hn
      refine ⟨0, by rfl, by omega, ?_, ?_⟩
      · intro i hi
        have : i = 0 := by omega
        subst this
        exact le_refl _
      · intro i hi _
        omega
    · obtain ⟨j, hfold, hjn, hmin, htie⟩ := ih (Nat.pos_of_ne_zero hn)
      unfold minIdxFold at hfold ⊢
      rw [List.range_succ, List.foldl_append, hfold]
      simp only [List.foldl_cons, List.foldl_nil]
      by_cases hlt : f n < f j
      · rw [if_pos hlt]
        refine ⟨n, rfl, by omega, ?_, ?_⟩
        · intro i hi
          rcases Nat.lt_succ_iff_lt_or_eq.mp hi with h | h
          · exact le_of_lt (lt_of_lt_of_le hlt (hmin i h))
          · subst h; exact le_refl _
        · intro i hi h220
          rcases Nat.lt_succ_iff_lt_or_eq.mp hi with h | h
          · have := hmin i h
            omega
          · omega
      · rw [if_neg hlt]
        refine ⟨j, rfl, by omega, ?_, ?_⟩
        · intro i hi
          rcases Nat.lt_succ_iff_lt_or_eq.mp hi with h | h
          · exact hmin i h
          · subst h; exact le_of_not_lt hlt
        · intro i hi h220
          rcases Nat.lt_succ_iff_lt_or_eq.mp hi with h | h
          · exact htie i h h220
          · omega

/-- Claim C3 (amended): `ansiToRgb` maps 0..15 through the fixed 16-entry
table, 16..231 through the cube formula, 232..255 through the grayscale
ramp, and fails with the InvalidColorCode error for every index at or
above 256; for a negative index, however, it returns the JavaScript value
`undefined` (out-of-bounds array lookup) instead of failing with an
error. -/
theorem ansiToRgb_spec :
    (∀ i : Int, i < 0 → ansiToRgb i = JsResult.undefined) ∧
    (∀ i : Nat, i < 16 → ansiToRgb (i : Int) = JsResult.ok (baseColors.getD i ⟨0, 0, 0⟩)) ∧
    (∀ i : Nat, i < 232 → 16 ≤ i →
      ansiToRgb (i : Int) =
        JsResult.ok ⟨(i - 16) / 36 * 51, (i - 16) % 36 / 6 * 51, (i - 16) % 6 * 51⟩) ∧
    (∀ i : Nat, i < 256 → 232 ≤ i →
      ansiToRgb (i : Int) =
        JsResult.ok ⟨(i - 232) * 10 + 8, (i - 232) * 10 + 8, (i - 232) * 10 + 8⟩) ∧
    (∀ i : Int, 256 ≤ i → ansiToRgb i = JsResult.thrown "Invalid ANSI color code") := by
  refine ⟨?_, ?_, ?_, ?_, ?_⟩
  · intro i h
    unfold ansiToRgb jsIndex
    rw [if_pos (show i < (16 : Int) by omega), if_pos h]
  · decide
  · decide
  · decide
  · intro i h
    unfold ansiToRgb
    rw [if_neg (show ¬ i < (16 : Int) by omega), if_neg (show ¬ i < (232 : Int) by omega),
      if_neg (show ¬ i < (256 : Int) by omega)]

/-- Witness for `ansiToRgb_spec`, instantiating each conjunct at a
concrete index. -/
theorem ansiToRgb_spec_witness :
    ansiToRgb (-3) = JsResult.undefined ∧
    ansiToRgb ((5 : Nat) : Int) = JsResult.ok (baseColors.getD 5 ⟨0, 0, 0⟩) ∧
    ansiToRgb ((100 : Nat) : Int) =
      JsResult.ok ⟨(100 - 16) / 36 * 51, (100 - 16) % 36 / 6 * 51, (100 - 16) % 6 * 51⟩ ∧
    ansiToRgb ((240 : Nat) : Int) =
      JsResult.ok ⟨(240 - 232) * 10 + 8, (240 - 232) * 10 + 8, (240 - 232) * 10 + 8⟩ ∧
    ansiToRgb 300 = JsResult.thrown "Invalid ANSI color code" :=
  ⟨ansiToRgb_spec.1 (-3) (by decide),
   ansiToRgb_spec.2.1 5 (by decide),
   ansiToRgb_spec.2.2.1 100 (by decide) (by decide),
   ansiToRgb_spec.2.2.2.1 240 (by decide) (by decide),
   ansiToRgb_spec.2.2.2.2 300 (by decide)⟩

/-- Counterexample to claim C3 as stated: at the negative index -1 the
code does not fail with the InvalidColorCode error; it returns the
JavaScript value `undefined` (the out-of-bounds table access
`baseColors[-1]`). -/
theorem ansiToRgb_neg_counterexample :
    ansiToRgb (-1) = JsResult.undefined ∧
    ansiToRgb (-1) ≠ JsResult.thrown "Invalid ANSI color code" := by
  decide

/-- Claim C5: `rgbToAnsi` returns an index below 256 whose palette color
has minimum (squared, hence also Euclidean, since the square root is
strictly monotone) distance to the input among all 256 palette entries,
and on ties it returns the lowest such index: any index at equal distance
is at or above the returned one.  Determinism is immediate because the
embedding is a pure function of its argument. -/
theorem rgbToAnsi_nearest (color : RGBColor) :
    rgbToAnsi color < 256 ∧
    (∀ i, i < 256 → dist2 (paletteColor (rgbToAnsi color)) color ≤ dist2 (paletteColor i) color) ∧
    (∀ i, i < 256 → dist2 (paletteColor i) color = dist2 (paletteColor (rgbToAnsi color)) color →
      rgbToAnsi color ≤ i) := by
  obtain ⟨j, hfold, hjn, hmin, htie⟩ :=
    minIdxFold_spec (fun i => dist2 (paletteColor i) color) 256 (by omega)
  have hj : rgbToAnsi color = j := by
    unfold rgbToAnsi
    rw [hfold]
  rw [hj]
  exact ⟨hjn, hmin, htie⟩

/-- Witness for `rgbToAnsi_nearest` at a concrete color. -/
theorem rgbToAnsi_nearest_witness :
    rgbToAnsi ⟨10, 20, 30⟩ < 256 ∧
    (∀ i, i < 256 →
      dist2 (paletteColor (rgbToAnsi ⟨10, 20, 30⟩)) ⟨10, 20, 30⟩ ≤
        dist2 (paletteColor i) ⟨10, 20, 30⟩) ∧
    (∀ i, i < 256 →
      dist2 (paletteColor i) ⟨10, 20, 30⟩ =
        dist2 (paletteColor (rgbToAnsi ⟨10, 20, 30⟩)) ⟨10, 20, 30⟩ →
      rgbToAnsi ⟨10, 20, 30⟩ ≤ i) :=
  rgbToAnsi_nearest ⟨10, 20, 30⟩

/-- Counterexample to claim C1 as stated: palette index 16 has the same
RGB color (0,0,0) as index 0, so the round trip returns 0 for it, not 16;
the 256 canonical colors are not all fixed points. -/
theorem roundTrip_16_counterexample : rgbToAnsi (paletteColor 16) ≠ 16 := by
  decide

/-- Claim C1 (amended): for every palette index i in 0..255 the round trip
preserves the COLOR of the index and returns the LEAST index carrying that
color; index i is an exact fixed point precisely when no smaller index has
the same RGB color.  The 256 canonical palette colors are not pairwise
distinct (the 16-entry table colors recur in the cube and grayscale
ramps, e.g. indices 16, 196 and 244 repeat the colors of indices 0, 9 and
8), and exactly those duplicate indices fail to be fixed points. -/
theorem roundTrip_least_index (i : Nat) (h : i < 256) :
    paletteColor (rgbToAnsi (paletteColor i)) = paletteColor i ∧
    rgbToAnsi (paletteColor i) ≤ i ∧
    (rgbToAnsi (paletteColor i) = i ↔ ∀ k, k < i → paletteColor k ≠ paletteColor i) := by
  obtain ⟨j, hfold, hjn, hmin, htie⟩ :=
    minIdxFold_spec (fun k => dist2 (paletteColor k) (paletteColor i)) 256 (by omega)
  have hj : rgbToAnsi (paletteColor i) = j := by
    unfold rgbToAnsi
    rw [hfold]
  have hfi : dist2 (paletteColor i) (paletteColor i) = 0 := dist2_self _
  have hfj0 : dist2 (paletteColor j) (paletteColor i) = 0 := by
    have h1 := hmin i h
    have h2 := dist2_nonneg (paletteColor j) (paletteColor i)
    simp only [hfi] at h1
    omega
  have hpal : paletteColor j = paletteColor i := dist2_eq_zero _ _ hfj0
  have hle : j ≤ i := htie i h (by simp only [hfi, hfj0])
  refine ⟨by rw [hj, hpal], by rw [hj]; exact hle, ?_⟩
  rw [hj]
  constructor
  · intro hji k hk hcontra
    have hk0 : dist2 (paletteColor k) (paletteColor i) = 0 := by
      rw [hcontra]
      exact dist2_self _
    have hjk := htie k (by omega) (by simp only [hk0, hfj0])
    omega
  · intro hleast
    by_contra hne
    have hji : j < i := lt_of_le_of_ne hle hne
    exact hleast j hji hpal

/-- Witness for `roundTrip_least_index` at index 9, which is a genuine
fixed point. -/
theorem roundTrip_least_index_witness :
    paletteColor (rgbToAnsi (paletteColor 9)) = paletteColor 9 ∧
    rgbToAnsi (paletteColor 9) ≤ 9 ∧
    (rgbToAnsi (paletteColor 9) = 9 ↔ ∀ k, k < 9 → paletteColor k ≠ paletteColor 9) :=
  roundTrip_least_index 9 (by decide)

/-- Dropping a prefix never lengthens a list. -/
theorem dropWhile_length_le (p : Char → Bool) (l : List Char) :
    (l.dropWhile p).length ≤ l.length := by
  induction l with
  | nil => simp [List.dropWhile]
  | cons a l ih =>
    simp only [List.dropWhile]
    cases p a
    · simp
    · simp only [List.length_cons]
      omega

/-- Decimal printing with sufficient fuel is nonempty, consists of digit
characters only, and is inverted by the decimal reading that
`ansiEscapeToRgb` performs. -/
theorem natToDigitsAux_spec :
    ∀ fuel n : Nat, n < fuel →
      natToDigitsAux fuel n ≠ [] ∧
      (∀ c ∈ natToDigitsAux fuel n, isDigitChar c = true) ∧
      digitsToNat (natToDigitsAux fuel n) = n := by
  intro fuel
  induction fuel with
  | zero => intro n h; omega
  | succ fuel ih =>
    intro n h
    have hdig : ∀ m, m < 10 → ((digitChar m).toNat - 48 = m ∧ isDigitChar (digitChar m) = true) := by
      decide
    unfold natToDigitsAux
    by_cases h10 : n < 10
    · rw [if_pos h10]
      refine ⟨by simp, ?_, ?_⟩
      · intro c hc
        simp only [List.mem_singleton] at hc
        rw [hc]
        exact (hdig n h10).2
      · simp only [digitsToNat, List.foldl_cons, List.foldl_nil]
        have := (hdig n h10).1
        omega
    · rw [if_neg h10]
      have hih := ih (n / 10) (by omega)
      refine ⟨by simp, ?_, ?_⟩
      · intro c hc
        rw [List.mem_append] at hc
        rcases hc with hc | hc
        · exact hih.2.1 c hc
        · simp only [List.mem_singleton] at hc
          rw [hc]
          exact (hdig (n % 10) (by omega)).2
      · simp only [digitsToNat, List.foldl_append, List.foldl_cons, List.foldl_nil]
        have h1 := hih.2.2
        simp only [digitsToNat] at h1
        rw [h1]
        have h2 := (hdig (n % 10) (by omega)).1
        omega

/-- Decimal printing is nonempty. -/
theorem natToDigits_ne_nil (n : Nat) : natToDigits n ≠ [] :=
  (natToDigitsAux_spec (n + 1) n (by omega)).1

/-- Decimal printing yields digit characters only. -/
theorem natToDigits_digits (n : Nat) : ∀ c ∈ natToDigits n, isDigitChar c = true :=
  (natToDigitsAux_spec (n + 1) n (by omega)).2.1

/-- Reading back a printed number yields the number. -/
theorem digitsToNat_natToDigits (n : Nat) : digitsToNat (natToDigits n) = n :=
  (natToDigitsAux_spec (n + 1) n (by omega)).2.2

/-- A maximal digit run over an all-digit block followed by a non-digit
head splits exactly at the block boundary. -/
theorem takeWhile_all_append (l r : List Char) (hl : ∀ c ∈ l, isDigitChar c = true)
    (hr : headNotDigit r) :
    (l ++ r).takeWhile isDigitChar = l ∧ (l ++ r).dropWhile isDigitChar = r := by
  induction l with
  | nil =>
    simp only [List.nil_append]
    cases r with
    | nil => simp [List.takeWhile, List.dropWhile]
    | cons c cs =>
      unfold headNotDigit at hr
      simp [List.takeWhile, List.dropWhile, hr]
  | cons a l ih =>
    have ha : isDigitChar a = true := hl a (by simp)
    have hl' : ∀ c ∈ l, isDigitChar c = true := fun c hc => hl c (by simp [hc])
    obtain ⟨h1, h2⟩ := ih hl'
    simp [List.takeWhile, List.dropWhile, ha, h1, h2]

/-- The block scanner does not depend on the fuel amount once the fuel
covers the list length. -/
theorem parseBlocksAux_fuel :
    ∀ f1 f2 cs, cs.length ≤ f1 → cs.length ≤ f2 →
      parseBlocksAux f1 cs = parseBlocksAux f2 cs := by
  intro f1
  induction f1 with
  | zero =>
    intro f2 cs h1 _
    have : cs = [] := List.eq_nil_of_length_eq_zero (by omega)
    subst this
    cases f2 <;> rfl
  | succ f1 ih =>
    intro f2 cs h1 h2
    cases f2 with
    | zero =>
      have : cs = [] := List.eq_nil_of_length_eq_zero (by omega)
      subst this
      rfl
    | succ f2 =>
      cases cs with
      | nil => rfl
      | cons c cs' =>
        simp only [parseBlocksAux]
        by_cases hc : c = ';'
        · rw [if_pos hc, if_pos hc]
          by_cases hd : cs'.takeWhile isDigitChar = []
          · rw [if_pos hd, if_pos hd]
          · rw [if_neg hd, if_neg hd]
            have hlen : (cs'.dropWhile isDigitChar).length ≤ cs'.length :=
              dropWhile_length_le _ _
            simp only [List.length_cons] at h1 h2
            rw [ih f2 (cs'.dropWhile isDigitChar) (by omega) (by omega)]
        · rw [if_neg hc, if_neg hc]

/-- One `;digits` block peels off the front of the block scanner. -/
theorem parseBlocks_cons (d rest : List Char) (hd : d ≠ [])
    (hall : ∀ c ∈ d, isDigitChar c = true) (hr : headNotDigit rest) :
    parseBlocks (';' :: (d ++ rest)) = (d :: (parseBlocks rest).1, (parseBlocks rest).2) := by
  obtain ⟨ht, hdr⟩ := takeWhile_all_append d rest hall hr
  unfold parseBlocks
  simp only [List.length_cons, parseBlocksAux, if_pos rfl, ht, hdr, if_neg hd]
  rw [parseBlocksAux_fuel ((d ++ rest).length) rest.length rest (by simp) (by omega)]
  simp

/-- The block scanner on the tail of an emitted true-color escape
`;2;R;G;B m`: it collects the `2` block and the three digit blocks and
stops at the final `m`. -/
theorem parseBlocks_emit (dR dG dB : List Char)
    (hRn : dR ≠ []) (hRd : ∀ c ∈ dR, isDigitChar c = true)
    (hGn : dG ≠ []) (hGd : ∀ c ∈ dG, isDigitChar c = true)
    (hBn : dB ≠ []) (hBd : ∀ c ∈ dB, isDigitChar c = true) :
    parseBlocks (';' :: '2' :: ';' :: (dR ++ (';' :: (dG ++ (';' :: (dB ++ ['m'])))))) =
      ([['2'], dR, dG, dB], ['m']) := by
  have e1 : (';' :: '2' :: ';' :: (dR ++ (';' :: (dG ++ (';' :: (dB ++ ['m'])))))) =
      ';' :: ((['2'] : List Char) ++ (';' :: (dR ++ (';' :: (dG ++ (';' :: (dB ++ ['m']))))))) := rfl
  rw [e1, parseBlocks_cons ['2'] _ (by simp) (by decide) (by rfl)]
  rw [parseBlocks_cons dR _ hRn hRd (by rfl)]
  rw [parseBlocks_cons dG _ hGn hGd (by rfl)]
  rw [parseBlocks_cons dB _ hBn hBd (by rfl)]
  rfl

/-- The regex match on an emitted true-color escape succeeds with group 1
holding the leading two-digit code and the block list holding the `2`
selector and the three channel digit strings. -/
theorem matchAtPos_emit (d0 : Char) (hd0 : isDigitChar d0 = true) (dR dG dB : List Char)
    (hRn : dR ≠ []) (hRd : ∀ c ∈ dR, isDigitChar c = true)
    (hGn : dG ≠ []) (hGd : ∀ c ∈ dG, isDigitChar c = true)
    (hBn : dB ≠ []) (hBd : ∀ c ∈ dB, isDigitChar c = true) :
    matchAtPos ('\x1b' :: '[' :: d0 :: '8' :: ';' :: '2' :: ';' ::
        (dR ++ (';' :: (dG ++ (';' :: (dB ++ ['m'])))))) =
      some ([d0, '8'], [['2'], dR, dG, dB]) := by
  have hpre : ∀ c ∈ [d0, '8'], isDigitChar c = true := by
    intro c hc
    simp only [List.mem_cons, List.mem_singleton, List.not_mem_nil, or_false] at hc
    rcases hc with rfl | rfl
    · exact hd0
    · decide
  have hsplit := takeWhile_all_append [d0, '8']
    (';' :: '2' :: ';' :: (dR ++ (';' :: (dG ++ (';' :: (dB ++ ['m'])))))) hpre (by rfl)
  have ht2 : (d0 :: '8' :: ';' :: '2' :: ';' ::
      (dR ++ (';' :: (dG ++ (';' :: (dB ++ ['m'])))))).takeWhile isDigitChar = [d0, '8'] :=
    hsplit.1
  have hdr2 : (d0 :: '8' :: ';' :: '2' :: ';' ::
      (dR ++ (';' :: (dG ++ (';' :: (dB ++ ['m'])))))).dropWhile isDigitChar =
      ';' :: '2' :: ';' :: (dR ++ (';' :: (dG ++ (';' :: (dB ++ ['m']))))) :=
    hsplit.2
  simp only [matchAtPos]
  rw [if_pos ⟨trivial, trivial⟩, ht2, hdr2, parseBlocks_emit dR dG dB hRn hRd hGn hGd hBn hBd]
  simp

/-- A successful match at the head position is what the unanchored search
returns. -/
theorem findAnsiMatch_cons (c : Char) (cs : List Char) (m : List Char × List (List Char))
    (h : matchAtPos (c :: cs) = some m) : findAnsiMatch (c :: cs) = some m := by
  unfold findAnsiMatch
  rw [h]

/-- Claim C2 (amended): the true-color escape emitted by the `Rgb` branch
of `getColorStringForNode` is NOT parsed back by `ansiEscapeToRgb`.  The
parse/emit symmetry claimed by the spec fails for every RGB triple and
both background flags: the parser's regex keeps only the last repeated
`;n` capture, so `ESC[38;2;r;g;bm` collapses to the code list `[38, 2, b]`
and the parse always fails with the UnsupportedEscapeSequence error
instead of returning the original triple. -/
theorem parseEmit_unsupported (c : RGBColor) (bg : Bool) :
    ansiEscapeToRgb (rgbToAnsiEscape c bg) =
      ParseResult.thrown "Unsupported ANSI escape sequence" := by
  have key : ∀ d0 : Char, isDigitChar d0 = true →
      ansiEscapeToRgb (List.asString ('\x1b' :: '[' :: d0 :: '8' :: ';' :: '2' :: ';' ::
          (natToDigits c.R ++ (';' :: (natToDigits c.G ++ (';' :: (natToDigits c.B ++ ['m']))))))) =
        ParseResult.thrown "Unsupported ANSI escape sequence" := by
    intro d0 hd0
    have hm := matchAtPos_emit d0 hd0 (natToDigits c.R) (natToDigits c.G) (natToDigits c.B)
      (natToDigits_ne_nil _) (natToDigits_digits _) (natToDigits_ne_nil _) (natToDigits_digits _)
      (natToDigits_ne_nil _) (natToDigits_digits _)
    unfold ansiEscapeToRgb
    have htl : (List.asString ('\x1b' :: '[' :: d0 :: '8' :: ';' :: '2' :: ';' ::
        (natToDigits c.R ++ (';' :: (natToDigits c.G ++ (';' :: (natToDigits c.B ++ ['m']))))))).toList =
        '\x1b' :: '[' :: d0 :: '8' :: ';' :: '2' :: ';' ::
          (natToDigits c.R ++ (';' :: (natToDigits c.G ++ (';' :: (natToDigits c.B ++ ['m']))))) := rfl
    rw [htl, findAnsiMatch_cons _ _ _ hm]
    have h2 : digitsToNat ['2'] = 2 := by decide
    simp [List.getLastD, h2]
  cases bg
  · exact key '3' (by decide)
  · exact key '4' (by decide)

/-- Counterexample to claim C2 as stated: emitting the true-color escape
for (255,0,0) foreground and parsing it back does not return the original
triple and flag; the parse throws instead. -/
theorem parseEmit_counterexample :
    ansiEscapeToRgb (rgbToAnsiEscape ⟨255, 0, 0⟩ false) ≠
      ParseResult.ok ⟨⟨255, 0, 0⟩, false⟩ := by
  decide

/-- Claim C4 (amended): `ansiEscapeToRgb` accepts the single-code forms
30..37 (foreground) and 40..47 (background) through the 16-entry table and
the three-part 38;5;n / 48;5;n selectors; a lone code outside those ranges
fails with the UnsupportedEscapeSequence error and a non-matching string
fails with the InvalidEscapeSequence error.  However, NOT every other
grammar-matching sequence fails with UnsupportedEscapeSequence: because
the regex keeps only the first and the last repeated `;n` capture, a
sequence of four or more parts starting 38;5 (or 48;5) collapses to
38;5;(last part) and SUCCEEDS, and a 38;5;n selector with n outside 0..255
fails with the InvalidColorCode error of the palette conversion rather
than with UnsupportedEscapeSequence. -/
theorem ansiEscapeToRgb_spec :
    (∀ n : Nat, n < 38 → 30 ≤ n →
      ansiEscapeToRgb (List.asString ('\x1b' :: '[' :: (natToDigits n ++ ['m']))) =
        ParseResult.ok ⟨paletteColor (n - 30), false⟩) ∧
    (∀ n : Nat, n < 48 → 40 ≤ n →
      ansiEscapeToRgb (List.asString ('\x1b' :: '[' :: (natToDigits n ++ ['m']))) =
        ParseResult.ok ⟨paletteColor (n - 40), true⟩) ∧
    (∀ n : Nat, n < 256 →
      ansiEscapeToRgb (List.asString
          ('\x1b' :: '[' :: '3' :: '8' :: ';' :: '5' :: ';' :: (natToDigits n ++ ['m']))) =
        ParseResult.ok ⟨paletteColor n, false⟩) ∧
    (∀ n : Nat, n < 256 →
      ansiEscapeToRgb (List.asString
          ('\x1b' :: '[' :: '4' :: '8' :: ';' :: '5' :: ';' :: (natToDigits n ++ ['m']))) =
        ParseResult.ok ⟨paletteColor n, true⟩) ∧
    ansiEscapeToRgb "\x1b[99m" = ParseResult.thrown "Unsupported ANSI escape sequence" ∧
    ansiEscapeToRgb "\x1b[38;9m" = ParseResult.thrown "Unsupported ANSI escape sequence" ∧
    ansiEscapeToRgb "hello" = ParseResult.thrown "Invalid ANSI escape sequence" ∧
    ansiEscapeToRgb "\x1b[38;5;1;2m" = ParseResult.ok ⟨paletteColor 2, false⟩ ∧
    ansiEscapeToRgb "\x1b[38;5;300m" = ParseResult.thrown "Invalid ANSI color code" := by
  refine ⟨?_, ?_, ?_, ?_, ?_, ?_, ?_, ?_, ?_⟩ <;> decide

/-- Witness for `ansiEscapeToRgb_spec`, instantiating the bounded
conjuncts at concrete codes (31 maps through table entry 1, 9 is the red
palette index of the spec scenario). -/
theorem ansiEscapeToRgb_spec_witness :
    ansiEscapeToRgb (List.asString ('\x1b' :: '[' :: (natToDigits 31 ++ ['m']))) =
      ParseResult.ok ⟨paletteColor (31 - 30), false⟩ ∧
    ansiEscapeToRgb (List.asString ('\x1b' :: '[' :: (natToDigits 41 ++ ['m']))) =
      ParseResult.ok ⟨paletteColor (41 - 40), true⟩ ∧
    ansiEscapeToRgb (List.asString
        ('\x1b' :: '[' :: '3' :: '8' :: ';' :: '5' :: ';' :: (natToDigits 9 ++ ['m']))) =
      ParseResult.ok ⟨paletteColor 9, false⟩ ∧
    ansiEscapeToRgb (List.asString
        ('\x1b' :: '[' :: '4' :: '8' :: ';' :: '5' :: ';' :: (natToDigits 9 ++ ['m']))) =
      ParseResult.ok ⟨paletteColor 9, true⟩ :=
  ⟨ansiEscapeToRgb_spec.1 31 (by decide) (by decide),
   ansiEscapeToRgb_spec.2.1 41 (by decide) (by decide),
   ansiEscapeToRgb_spec.2.2.1 9 (by decide),
   ansiEscapeToRgb_spec.2.2.2.1 9 (by decide)⟩

/-- Counterexample to claim C4 as stated: the four-part sequence
`ESC[38;5;1;2m` matches the escape grammar and is neither of the two
claimed forms, yet the parser does NOT fail with UnsupportedEscapeSequence:
the repeated-group capture collapses it to 38;5;2 and it succeeds with
palette entry 2; furthermore `ESC[38;5;300m` fails with the
InvalidColorCode error, not with UnsupportedEscapeSequence. -/
theorem ansiEscapeToRgb_collapse_counterexample :
    ansiEscapeToRgb "\x1b[38;5;1;2m" = ParseResult.ok ⟨⟨0, 128, 0⟩, false⟩ ∧
    ansiEscapeToRgb "\x1b[38;5;300m" ≠
      ParseResult.thrown "Unsupported ANSI escape sequence" := by
  decide

/-- Counterexample to claim C6 as stated: with byte threshold 100, the
trace that writes 101 bytes and then one more byte performs NO rotation
cycle in between — the 102nd byte is appended to the still-open first sink
(generation 1, zero rotations), because the code only rotates inside the
periodic `setInterval` callback, never on the write path. -/
theorem rotation_threshold_counterexample :
    rotRun 100 rotInit [RotEvent.write 101, RotEvent.write 1] = ⟨102, 1, 0⟩ := by
  decide

/-- Claim C6 (amended): crossing the byte threshold does not rotate by
itself; the rotation happens at the NEXT periodic check.  Writes never
rotate; once the accumulated bytes exceed the threshold (101 > 100), the
next timer tick performs exactly one rotation cycle — the old sink is
closed and deleted and a new sink is opened at the same path (generation
increases by one), the rotation count increases by one, and the
accumulated-byte counter resets to 0 — and an immediately following tick
with no further writes does not rotate again. -/
theorem rotation_at_next_tick (s : RotState) (h : 100 < s.bytes) :
    (∀ n, (rotStep 100 s (RotEvent.write n)).rotations = s.rotations) ∧
    (rotStep 100 s RotEvent.tick).bytes = 0 ∧
    (rotStep 100 s RotEvent.tick).generation = s.generation + 1 ∧
    (rotStep 100 s RotEvent.tick).rotations = s.rotations + 1 ∧
    rotStep 100 (rotStep 100 s RotEvent.tick) RotEvent.tick = rotStep 100 s RotEvent.tick := by
  have h1 : rotStep 100 s RotEvent.tick = ⟨0, s.generation + 1, s.rotations + 1⟩ := by
    simp [rotStep, h]
  refine ⟨fun n => rfl, ?_, ?_, ?_, ?_⟩ <;> (rw [h1]; try simp [rotStep])

/-- Witness for `rotation_at_next_tick` at the state reached after writing
101 bytes under threshold 100. -/
theorem rotation_at_next_tick_witness :
    (∀ n, (rotStep 100 ⟨101, 1, 0⟩ (RotEvent.write n)).rotations =
      (⟨101, 1, 0⟩ : RotState).rotations) ∧
    (rotStep 100 ⟨101, 1, 0⟩ RotEvent.tick).bytes = 0 ∧
    (rotStep 100 ⟨101, 1, 0⟩ RotEvent.tick).generation = (⟨101, 1, 0⟩ : RotState).generation + 1 ∧
    (rotStep 100 ⟨101, 1, 0⟩ RotEvent.tick).rotations = (⟨101, 1, 0⟩ : RotState).rotations + 1 ∧
    rotStep 100 (rotStep 100 ⟨101, 1, 0⟩ RotEvent.tick) RotEvent.tick =
      rotStep 100 ⟨101, 1, 0⟩ RotEvent.tick :=
  rotation_at_next_tick ⟨101, 1, 0⟩ (by decide)

/-- Claim C7: every persisted line is the formatted prefix, one space, the
message, and a terminating newline; with all three toggles off the prefix
is empty and the persisted line is exactly a space, the message and the
newline, with no other characters. -/
theorem persisted_line_format :
    (∀ fm s : String, saveToFile fm (JsValue.str s) = Except.ok (fm ++ " " ++ s ++ "\n")) ∧
    (∀ (o : LoggerOptions) (ts caller msg : String),
      o.printTimestamp = false → o.printLabelName = false →
      o.printCallerFunctionLocation = false →
      saveToFile (formatMessage o ts caller "error") (JsValue.str msg) =
        Except.ok (" " ++ msg ++ "\n")) := by
  refine ⟨fun fm s => rfl, ?_⟩
  intro o ts caller msg h1 h2 h3
  have ho : o = ⟨false, false, false⟩ := by
    rcases o with ⟨b1, b2, b3⟩
    simp only [LoggerOptions.mk.injEq]
    exact ⟨h1, h2, h3⟩
  rw [ho]
  rfl

/-- Witness for `persisted_line_format` with all toggles off and a
concrete message. -/
theorem persisted_line_format_witness :
    saveToFile (formatMessage ⟨false, false, false⟩ "TS" "CALLER" "error") (JsValue.str "hello") =
      Except.ok (" " ++ "hello" ++ "\n") :=
  persisted_line_format.2 ⟨false, false, false⟩ "TS" "CALLER" "hello" rfl rfl rfl

/-- Counterexample to claim C8 as stated: `saveToFile` has no exception
handler, so when serialization of an object message throws (circular
structure), the error PROPAGATES to the caller of the log operation and no
placeholder line is persisted. -/
theorem serialization_propagates_counterexample :
    saveToFile "" (JsValue.obj JsObj.circular) =
      Except.error "Converting circular structure to JSON" := by
  rfl

/-- Claim C8 (amended): object messages are serialized with
`JSON.stringify` before persistence, but a serialization failure is NOT
caught and no placeholder is substituted: the exception propagates out of
the save operation to the caller. -/
theorem saveToFile_serialization (fm s : String) :
    saveToFile fm (JsValue.obj (JsObj.ser s)) = Except.ok (fm ++ " " ++ s ++ "\n") ∧
    saveToFile fm (JsValue.obj JsObj.circular) =
      Except.error "Converting circular structure to JSON" :=
  ⟨rfl, rfl⟩

/-- After an in-place overwrite of key `l`, looking up `l` finds the new
entry. -/
theorem find?_mapReplace (m : List (String × COLOR)) (l : String) (c : COLOR)
    (h : m.any (fun e => e.1 == l) = true) :
    (m.map (fun e => if e.1 == l then (l, c) else e)).find? (fun e => e.1 == l) = some (l, c) := by
  induction m with
  | nil => simp at h
  | cons p t ih =>
    simp only [List.any_cons, Bool.or_eq_true] at h
    by_cases hp : (p.1 == l) = true
    · simp [List.find?, hp]
    · have hp' : (p.1 == l) = false := by
        simp only [Bool.not_eq_true] at hp
        exact hp
      have ht : t.any (fun e => e.1 == l) = true := by
        rcases h with h | h
        · rw [hp'] at h
          exact absurd h (by simp)
        · exact h
      have hnp : ¬ ((p.1 == l) = true) := by
        rw [hp']
        simp
      simp only [List.map_cons, if_neg hnp]
      rw [@List.find?_cons_of_neg _ (fun e => e.1 == l) p _ hnp]
      exact ih ht

/-- An in-place overwrite of key `l` does not change lookups of any other
key. -/
theorem find?_mapReplace_ne (m : List (String × COLOR)) (l l' : String) (c : COLOR)
    (hne : l' ≠ l) :
    (m.map (fun e => if e.1 == l then (l, c) else e)).find? (fun e => e.1 == l') =
      m.find? (fun e => e.1 == l') := by
  have hll' : (l == l') = false := beq_eq_false_iff_ne.mpr (Ne.symm hne)
  induction m with
  | nil => simp
  | cons p t ih =>
    by_cases hp : (p.1 == l) = true
    · have hpl : p.1 = l := by
        exact beq_iff_eq.mp hp
      have hp1 : (p.1 == l') = false := by
        rw [hpl]
        exact hll'
      have hn1 : ¬ (((l, c).1 == l') = true) := by
        simp only []
        rw [hll']
        simp
      have hn2 : ¬ ((p.1 == l') = true) := by
        rw [hp1]
        simp
      simp only [List.map_cons, if_pos hp]
      rw [@List.find?_cons_of_neg _ (fun e => e.1 == l') (l, c) _ hn1,
        @List.find?_cons_of_neg _ (fun e => e.1 == l') p _ hn2]
      exact ih
    · simp only [List.map_cons, if_neg hp]
      cases hp' : (p.1 == l') with
      | true =>
        rw [@List.find?_cons_of_pos _ (fun e => e.1 == l') p _ hp',
          @List.find?_cons_of_pos _ (fun e => e.1 == l') p _ hp']
      | false =>
        have hn3 : ¬ ((p.1 == l') = true) := by
          rw [hp']
          simp
        rw [@List.find?_cons_of_neg _ (fun e => e.1 == l') p _ hn3,
          @List.find?_cons_of_neg _ (fun e => e.1 == l') p _ hn3]
        exact ih

/-- Registering a label makes its exact-cased lookup resolve to the new
color (JavaScript property assignment: last write wins). -/
theorem resolveLabel_jsSet_same (m : List (String × COLOR)) (l : String) (c : COLOR) :
    resolveLabel (jsSet m l c) l = some c := by
  unfold resolveLabel jsSet
  by_cases h : m.any (fun e => e.1 == l)
  · rw [if_pos h, find?_mapReplace m l c h]
    rfl
  · rw [if_neg h, List.find?_append]
    have hnone : m.find? (fun e => e.1 == l) = none := by
      rw [List.find?_eq_none]
      intro x hx hpx
      exact h (List.any_eq_true.mpr ⟨x, hx, hpx⟩)
    rw [hnone]
    simp [List.find?]

/-- Registering a label leaves the lookup of every OTHER key string
(including any different casing of the same name) unchanged. -/
theorem resolveLabel_jsSet_ne (m : List (String × COLOR)) (l l' : String) (c : COLOR)
    (hne : l' ≠ l) :
    resolveLabel (jsSet m l c) l' = resolveLabel m l' := by
  unfold resolveLabel jsSet
  by_cases h : m.any (fun e => e.1 == l)
  · rw [if_pos h, find?_mapReplace_ne m l l' c hne]
  · rw [if_neg h, List.find?_append]
    have h2 : [(l, c)].find? (fun e => e.1 == l') = none := by
      have hll' : (l == l') = false := beq_eq_false_iff_ne.mpr (Ne.symm hne)
      simp [List.find?, hll']
    rw [h2]
    simp

/-- One override entry can replace a label's color but never removes a
label: any label that resolved before still resolves afterwards. -/
theorem applyCustomLabel_preserves (m : List (String × COLOR)) (e : CustomLabel) (d : String)
    (h : (resolveLabel m d).isSome = true) :
    (resolveLabel (applyCustomLabel m e) d).isSome = true := by
  unfold applyCustomLabel
  by_cases hf : (labelFalsy e.label || colorFalsy e.color) = true
  · rw [if_pos hf]
    exact h
  · rw [if_neg hf]
    rcases e with ⟨lbl, col⟩
    cases lbl with
    | none => exact h
    | some l =>
      cases col with
      | none => exact h
      | some c =>
        by_cases hd : d = l
        · subst hd
          rw [resolveLabel_jsSet_same]
          rfl
        · rw [resolveLabel_jsSet_ne m l d c hd]
          exact h

/-- A whole override sequence never removes a label that resolved before
it was applied. -/
theorem updateCustomLabels_preserves (ls : List CustomLabel) :
    ∀ (m : List (String × COLOR)) (d : String), (resolveLabel m d).isSome = true →
      (resolveLabel (updateCustomLabels m ls) d).isSome = true := by
  induction ls with
  | nil => intro m d h; exact h
  | cons e ls ih =>
    intro m d h
    exact ih (applyCustomLabel m e) d (applyCustomLabel_preserves m e d h)

/-- Counterexample to claim C9 as stated: the registry lookup is NOT
case-insensitive.  A label registered as "custom" resolves under exactly
that casing, while the variant casing "CUSTOM" does not resolve at all
(the source reads `MAPPED_LABEL[label]` with plain property access and
performs no case normalization anywhere). -/
theorem label_case_counterexample :
    resolveLabel (updateCustomLabels MAPPED_LABEL [⟨some "custom", some (COLOR.named "RED")⟩])
      "custom" = some (COLOR.named "RED") ∧
    resolveLabel (updateCustomLabels MAPPED_LABEL [⟨some "custom", some (COLOR.named "RED")⟩])
      "CUSTOM" = none := by
  decide

/-- Claim C9 (amended): label names are stored and looked up verbatim,
with exact case-sensitive string equality: registering a label makes the
identically-cased lookup resolve to its color (last write wins), and
leaves the lookup of every other string — in particular any other casing
of the same name — completely unchanged. -/
theorem label_lookup_case_sensitive (m : List (String × COLOR)) (l l' : String) (c : COLOR)
    (hne : l' ≠ l) :
    resolveLabel (jsSet m l c) l = some c ∧
    resolveLabel (jsSet m l c) l' = resolveLabel m l' :=
  ⟨resolveLabel_jsSet_same m l c, resolveLabel_jsSet_ne m l l' c hne⟩

/-- Witness for `label_lookup_case_sensitive` on the default registry with
the two casings of "custom". -/
theorem label_lookup_case_sensitive_witness :
    resolveLabel (jsSet MAPPED_LABEL "custom" (COLOR.named "RED")) "custom" =
      some (COLOR.named "RED") ∧
    resolveLabel (jsSet MAPPED_LABEL "custom" (COLOR.named "RED")) "CUSTOM" =
      resolveLabel MAPPED_LABEL "CUSTOM" :=
  label_lookup_case_sensitive MAPPED_LABEL "custom" "CUSTOM" (COLOR.named "RED") (by decide)

/-- Claim C10: after any caller-supplied override sequence, each of the
eight default label names still resolves to some color (an override can
replace a default's color but never remove the label), and an entry whose
label or color field is missing or empty (JavaScript-falsy) leaves the
registry completely unchanged. -/
theorem defaults_never_removed :
    (∀ ls : List CustomLabel,
      (resolveLabel (updateCustomLabels MAPPED_LABEL ls) "error").isSome = true ∧
      (resolveLabel (updateCustomLabels MAPPED_LABEL ls) "warning").isSome = true ∧
      (resolveLabel (updateCustomLabels MAPPED_LABEL ls) "info").isSome = true ∧
      (resolveLabel (updateCustomLabels MAPPED_LABEL ls) "success").isSome = true ∧
      (resolveLabel (updateCustomLabels MAPPED_LABEL ls) "log").isSome = true ∧
      (resolveLabel (updateCustomLabels MAPPED_LABEL ls) "notify").isSome = true ∧
      (resolveLabel (updateCustomLabels MAPPED_LABEL ls) "alert").isSome = true ∧
      (resolveLabel (updateCustomLabels MAPPED_LABEL ls) "critical").isSome = true) ∧
    (∀ (m : List (String × COLOR)) (e : CustomLabel),
      (labelFalsy e.label || colorFalsy e.color) = true → applyCustomLabel m e = m) := by
  constructor
  · intro ls
    refine ⟨?_, ?_, ?_, ?_, ?_, ?_, ?_, ?_⟩ <;>
      exact updateCustomLabels_preserves ls MAPPED_LABEL _ (by decide)
  · intro m e hf
    unfold applyCustomLabel
    rw [if_pos hf]

/-- Witness for `defaults_never_removed`: a concrete override that
replaces the color of "error" keeps all eight defaults resolvable, and a
concrete entry with a missing label field leaves the registry unchanged. -/
theorem defaults_never_removed_witness :
    ((resolveLabel (updateCustomLabels MAPPED_LABEL
        [⟨some "error", some (COLOR.rgb 1 2 3 false)⟩]) "error").isSome = true ∧
      (resolveLabel (updateCustomLabels MAPPED_LABEL
        [⟨some "error", some (COLOR.rgb 1 2 3 false)⟩]) "warning").isSome = true ∧
      (resolveLabel (updateCustomLabels MAPPED_LABEL
        [⟨some "error", some (COLOR.rgb 1 2 3 false)⟩]) "info").isSome = true ∧
      (resolveLabel (updateCustomLabels MAPPED_LABEL
        [⟨some "error", some (COLOR.rgb 1 2 3 false)⟩]) "success").isSome = true ∧
      (resolveLabel (updateCustomLabels MAPPED_LABEL
        [⟨some "error", some (COLOR.rgb 1 2 3 false)⟩]) "log").isSome = true ∧
      (resolveLabel (updateCustomLabels MAPPED_LABEL
        [⟨some "error", some (COLOR.rgb 1 2 3 false)⟩]) "notify").isSome = true ∧
      (resolveLabel (updateCustomLabels MAPPED_LABEL
        [⟨some "error", some (COLOR.rgb 1 2 3 false)⟩]) "alert").isSome = true ∧
      (resolveLabel (updateCustomLabels MAPPED_LABEL
        [⟨some "error", some (COLOR.rgb 1 2 3 false)⟩]) "critical").isSome = true) ∧
    applyCustomLabel MAPPED_LABEL ⟨none, some (COLOR.named "RED")⟩ = MAPPED_LABEL :=
  ⟨defaults_never_removed.1 [⟨some "error", some (COLOR.rgb 1 2 3 false)⟩],
   defaults_never_removed.2 MAPPED_LABEL ⟨none, some (COLOR.named "RED")⟩ (by decide)⟩
